import Mathlib

/-!
A shallow embedding of the pusher.go channel engine (madari/pusher.go).

Messages live in an explicit heap indexed by `Nat` identifiers, because the Go
code passes `*Message` pointers and `channel.publish` mutates the pointed-to
message in place (`m.time = ...; m.etag = ...`).  The channel state mirrors the
Go `channel` struct; wait slots (Go: `chan *Message` elements of a
`container/list`) are modelled as records carrying a slot identity and a
`ready` flag that says whether the subscriber is blocked on the slot at the
instant of a publish (the Go `select`/`default` try-send succeeds exactly for
those).  Times are `Int` seconds since the epoch, as returned by
`time.Seconds()`.
-/

namespace PusherGo

/-- Go struct `Message` (pusher.go part_002).  `payload = none` models a nil
byte slice. -/
structure Message where
  contentType : String
  payload : Option (List Nat)
  status : Int
  etag : Int
  time : Int
deriving DecidableEq

/-- Go struct `Stats` (part_003). -/
structure Stats where
  created : Int
  delivered : Int
  lastPublished : Int
  lastRequested : Int
  published : Int
  subscribers : Int
  queued : Int
deriving DecidableEq

/-- Go struct `Configuration` (part_002).  Integer-valued knobs keep Go's
`int`/`int64` semantics. -/
structure Configuration where
  allowChannelCreation : Bool
  channelCapacity : Int
  concurrencyMode : Int
  contentType : String
  gcInterval : Int
  maxChannels : Int
  maxChannelIdleTime : Int
  pollingMechanism : Int
  pollingTimeout : Int
deriving DecidableEq

/-- Go constant `ConcurrencyModeBroadcast` (iota 0). -/
def concurrencyModeBroadcast : Int := 0

/-- Go constant `ConcurrencyModeFILO` (iota 1). -/
def concurrencyModeFILO : Int := 1

/-- Go constant `ConcurrencyModeLIFO` (iota 2). -/
def concurrencyModeLIFO : Int := 2

/-- Go constant `PollingMechanismLong` (iota 0). -/
def pollingMechanismLong : Int := 0

/-- Go constant `PollingMechanismInterval` (iota 1). -/
def pollingMechanismInterval : Int := 1

/-- The message heap: Go pointers become `Nat` identifiers. -/
def Heap : Type := Nat → Message

/-- Pointwise heap update (a write through a `*Message`). -/
def hUpdate (h : Heap) (i : Nat) (m : Message) : Heap :=
  fun j => if j = i then m else h j

/-- Identifier of the global `conflictMessage` (part_002). -/
def conflictId : Nat := 0

/-- Identifier of the global `goneMessage` (part_002). -/
def goneId : Nat := 1

/-- The Go zero value of `Message`. -/
def zeroMessage : Message :=
  { contentType := "", payload := none, status := 0, etag := 0, time := 0 }

/-- The initial heap: `conflictMessage = &Message{Status: 409}`,
`goneMessage = &Message{Status: 410}`, every other pointer starts as a zero
`Message` (fresh allocations are written before use). -/
def initHeap : Heap :=
  fun i =>
    if i = conflictId then { zeroMessage with status := 409 }
    else if i = goneId then { zeroMessage with status := 410 }
    else zeroMessage

/-- A wait slot: one element of the Go `subscribers *list.List`, i.e. one
`chan *Message`.  `sid` is the slot's identity; `ready` records whether the
subscriber is blocked receiving on the slot when a publish tries its
non-blocking handoff. -/
structure Sub where
  sid : Nat
  ready : Bool
deriving DecidableEq

/-- Go struct `channel` (part_003).  `queue` stores message identifiers newest
first, exactly like the `container/vector` used in the source.  `nextSid`
supplies fresh wait-slot identities (in Go a fresh `chan` value). -/
structure channel where
  subscribers : List Sub
  lastMessage : Option Nat
  stats : Stats
  id : String
  queue : List Nat
  nextSid : Nat
deriving DecidableEq

/-- Go `newChannel` (part_003): only `Stats.Created` is set. -/
def newChannel (id : String) (now : Int) : channel :=
  { subscribers := []
    lastMessage := none
    stats :=
      { created := now, delivered := 0, lastPublished := 0, lastRequested := 0
        published := 0, subscribers := 0, queued := 0 }
    id := id
    queue := []
    nextSid := 0 }

/-- Go `channel.stamp` (part_003). -/
def stamp (c : channel) : Int :=
  if c.stats.lastRequested = 0 ∧ c.stats.lastPublished = 0 then c.stats.created
  else if c.stats.lastRequested > c.stats.lastPublished then c.stats.lastRequested
  else c.stats.lastPublished

/-- Outcome of the non-blocking handoff to one wait slot: the slot is closed,
carrying the message iff the subscriber was ready. -/
def deliverOutcome (mid : Nat) (s : Sub) : Nat × Option Nat :=
  (s.sid, if s.ready then some mid else none)

/-- Result of Go `channel.publish`: the updated heap and channel, the
delivered count `n`, and the per-slot outcomes (every slot is closed). -/
structure PublishResult where
  heap : Heap
  chan : channel
  n : Nat
  outcomes : List (Nat × Option Nat)

/-- Go `channel.publish` (part_003, lines 143-178).  The two stamp writes are
performed sequentially through the heap, so the self-aliasing case
(`c.lastMessage == m`) behaves exactly as in the source: the first write zeroes
`m.etag` and sets `m.time = now`, after which `c.lastMessage.time == m.time`
reads the freshly written time. -/
def publish (cfg : Configuration) (now : Int) (h : Heap) (c : channel)
    (mid : Nat) (q : Bool) : PublishResult :=
  let h1 := hUpdate h mid { h mid with time := now, etag := 0 }
  let h2 :=
    match c.lastMessage with
    | some l =>
        if (h1 l).time = now then
          hUpdate h1 mid { h1 mid with etag := (h1 l).etag + 1 }
        else h1
    | none => h1
  let outcomes := c.subscribers.map (deliverOutcome mid)
  let n := (c.subscribers.filter (fun s => s.ready)).length
  let st1 :=
    { c.stats with
        published := c.stats.published + 1
        lastPublished := now
        subscribers := 0
        delivered := c.stats.delivered + (n : Int) }
  let c1 := { c with lastMessage := some mid, stats := st1, subscribers := [] }
  let c2 :=
    if q = true ∧ cfg.channelCapacity > 0 then
      if (c1.queue.length : Int) ≥ cfg.channelCapacity then
        { c1 with queue := mid :: c1.queue.dropLast }
      else
        { c1 with
            queue := mid :: c1.queue
            stats := { c1.stats with queued := c1.stats.queued + 1 } }
    else c1
  { heap := h2, chan := c2, n := n, outcomes := outcomes }

/-- Go `channel.PublishString` (part_003): allocate a fresh message with
status 200, content type text/plain and the given payload, then publish it. -/
def PublishString (cfg : Configuration) (now : Int) (h : Heap) (c : channel)
    (mid : Nat) (s : List Nat) (q : Bool) : PublishResult :=
  let h0 := hUpdate h mid
    { contentType := "text/plain", payload := some s, status := 200
      etag := 0, time := 0 }
  publish cfg now h0 c mid q

/-- The history-lookup loop of Go `channel.Subscribe` (part_003, lines
211-220), applied to the queue in oldest-to-newest order (the source walks
storage indices `Len()-1` down to `0`). -/
def lookup (h : Heap) (since : Int) (etagArg : Int) : List Nat → Option Nat
  | [] => none
  | mid :: rest =>
      if (h mid).time ≥ since then
        if (h mid).time = since ∧ (h mid).etag ≤ etagArg then
          lookup h since etagArg rest
        else some mid
      else lookup h since etagArg rest

/-- Result of Go `channel.Subscribe`: `elem` is the identity of a freshly
parked wait slot (the returned `*list.Element`), `message` the immediately
returned message, `woken` the slots closed by the LIFO pre-publish, `pubN` its
delivered count, and `hit` whether the queue lookup returned a message. -/
structure SubscribeResult where
  heap : Heap
  chan : channel
  elem : Option Nat
  message : Option Nat
  woken : List (Nat × Option Nat)
  pubN : Option Nat
  hit : Bool

/-- The part of Go `channel.Subscribe` after the concurrency-mode switch:
history lookup, then the interval/long branch. -/
def subscribeTail (cfg : Configuration) (h : Heap) (c : channel)
    (since : Int) (etagArg : Int) (ready : Bool)
    (woken : List (Nat × Option Nat)) (pubN : Option Nat) : SubscribeResult :=
  match lookup h since etagArg c.queue.reverse with
  | some mid =>
      { heap := h
        chan := { c with stats := { c.stats with delivered := c.stats.delivered + 1 } }
        elem := none, message := some mid, woken := woken, pubN := pubN
        hit := true }
  | none =>
      if cfg.pollingMechanism = pollingMechanismInterval then
        { heap := h, chan := c, elem := none, message := none, woken := woken
          pubN := pubN, hit := false }
      else
        { heap := h
          chan := { c with
                      subscribers := c.subscribers ++ [{ sid := c.nextSid, ready := ready }]
                      nextSid := c.nextSid + 1
                      stats := { c.stats with subscribers := c.stats.subscribers + 1 } }
          elem := some c.nextSid, message := none, woken := woken, pubN := pubN
          hit := false }

/-- Go `channel.Subscribe` (part_003, lines 196-230). -/
def Subscribe (cfg : Configuration) (now : Int) (h : Heap) (c : channel)
    (since : Int) (etagArg : Int) (ready : Bool) : SubscribeResult :=
  let c0 := { c with stats := { c.stats with lastRequested := now } }
  if cfg.concurrencyMode = concurrencyModeLIFO then
    let pr := publish cfg now h c0 conflictId false
    subscribeTail cfg pr.heap pr.chan since etagArg ready pr.outcomes (some pr.n)
  else if cfg.concurrencyMode = concurrencyModeFILO ∧ c0.stats.subscribers > 0 then
    { heap := h, chan := c0, elem := none, message := some conflictId
      woken := [], pubN := none, hit := false }
  else
    subscribeTail cfg h c0 since etagArg ready [] none

/-- Go `channel.Unsubscribe` (part_003): close and remove the slot, then set
`stats.Subscribers` to the remaining list length. -/
def Unsubscribe (c : channel) (sid : Nat) : channel :=
  let subs := c.subscribers.eraseP (fun s => s.sid == sid)
  { c with subscribers := subs
           stats := { c.stats with subscribers := (subs.length : Int) } }

/-- The plain-format stamp conversion of Go `channel.writeStats` (part_003,
lines 100-112), faithfully including the `else` branch of the
`LastPublished` conversion writing to `LastRequested`. -/
def writeStatsPlain (now : Int) (s : Stats) : Stats :=
  let s1 :=
    if s.lastRequested > 0 then { s with lastRequested := now - s.lastRequested }
    else { s with lastRequested := -1 }
  if s1.lastPublished > 0 then { s1 with lastPublished := now - s1.lastPublished }
  else { s1 with lastRequested := -1 }

/-- The eviction loop of Go `pusher.GC` (pusher.go, lines 95-102), run over
the channel slice already sorted ascending by `stamp`.  Returns the evicted
prefix `gc`. -/
def gcEvict (maxChannels limit : Int) : Int → List channel → List channel
  | _, [] => []
  | count, c :: rest =>
      if (maxChannels = 0 ∨ count ≤ maxChannels) ∧ stamp c ≥ limit then []
      else c :: gcEvict maxChannels limit (count - 1) rest

/-- Go `pusher.GC` (pusher.go, lines 77-112) on the sorted channel list:
`limit = (start - MaxChannelIdleTime) / 1e9` with Go's truncating integer
division, `count = len(channels)`. -/
def GC (cfg : Configuration) (startNs : Int) (sorted : List channel) : List channel :=
  gcEvict cfg.maxChannels ((startNs - cfg.maxChannelIdleTime).tdiv 1000000000)
    (sorted.length : Int) sorted

/-- A recorded call to `channel.Publish`: the clock value, the message
pointer, and the `queue` flag. -/
structure PubOp where
  now : Int
  mid : Nat
  q : Bool
deriving DecidableEq

/-- A sequence of `channel.Publish` calls. -/
def runPubs (cfg : Configuration) : Heap × channel → List PubOp → Heap × channel
  | s, [] => s
  | s, op :: rest =>
      let pr := publish cfg op.now s.1 s.2 op.mid op.q
      runPubs cfg (pr.heap, pr.chan) rest

/-- One caller-visible channel operation with its clock value.  `pub` and
`pubString` carry the message pointer they pass; `sub` carries the conditional
headers and whether the subscriber will be waiting on its slot; `unsub` names
the slot. -/
inductive Op
  | pub (now : Int) (mid : Nat) (q : Bool)
  | pubString (now : Int) (mid : Nat) (s : List Nat) (q : Bool)
  | sub (now : Int) (since : Int) (etagArg : Int) (ready : Bool)
  | unsub (sid : Nat)
deriving DecidableEq

/-- Observable accounting events of one operation: each run of
`channel.publish` reports its delivered count `n` (the Go return value), and
each immediate queue hit inside `Subscribe` reports one delivery. -/
inductive Ev
  | published (n : Nat)
  | hit
deriving DecidableEq

/-- Execute one operation, returning the new state and its events. -/
def stepOp (cfg : Configuration) (s : Heap × channel) : Op → (Heap × channel) × List Ev
  | .pub now mid q =>
      let pr := publish cfg now s.1 s.2 mid q
      ((pr.heap, pr.chan), [.published pr.n])
  | .pubString now mid str q =>
      let pr := PublishString cfg now s.1 s.2 mid str q
      ((pr.heap, pr.chan), [.published pr.n])
  | .sub now since etagArg ready =>
      let r := Subscribe cfg now s.1 s.2 since etagArg ready
      ((r.heap, r.chan),
        (match r.pubN with | some n => [Ev.published n] | none => [])
          ++ (if r.hit then [Ev.hit] else []))
  | .unsub sid => ((s.1, Unsubscribe s.2 sid), [])

/-- Execute a sequence of operations, accumulating events. -/
def runOps (cfg : Configuration) : Heap × channel → List Op → (Heap × channel) × List Ev
  | s, [] => (s, [])
  | s, op :: rest =>
      let r1 := stepOp cfg s op
      let r2 := runOps cfg r1.1 rest
      (r2.1, r1.2 ++ r2.2)

/-- Number of `published` events in a log. -/
def evPublishedCount : List Ev → Nat
  | [] => 0
  | .published _ :: r => evPublishedCount r + 1
  | .hit :: r => evPublishedCount r

/-- Sum of the delivered counts of the `published` events in a log. -/
def evSumN : List Ev → Nat
  | [] => 0
  | .published n :: r => n + evSumN r
  | .hit :: r => evSumN r

/-- Number of immediate queue hits in a log. -/
def evHitCount : List Ev → Nat
  | [] => 0
  | .published _ :: r => evHitCount r
  | .hit :: r => evHitCount r + 1

/-- Spec-side counter: the number of `Publish`/`PublishString` calls made by
callers in an operation sequence (claim C9's words). -/
def callerPublishCalls : List Op → Nat
  | [] => 0
  | .pub _ _ _ :: r => callerPublishCalls r + 1
  | .pubString _ _ _ _ :: r => callerPublishCalls r + 1
  | .sub _ _ _ _ :: r => callerPublishCalls r
  | .unsub _ :: r => callerPublishCalls r

/-- Strict lexicographic order on `(time, etag)` stamps. -/
def stampLt (a b : Message) : Prop :=
  a.time < b.time ∨ (a.time = b.time ∧ a.etag < b.etag)

instance (a b : Message) : Decidable (stampLt a b) := by
  unfold stampLt; infer_instance

/-- Spec-side predicate for the history lookup (claim C1's words): the stamp
of `mid` is lexicographically greater than `(since, etagArg)`. -/
def matchesAfter (h : Heap) (since etagArg : Int) (mid : Nat) : Bool :=
  decide (since < (h mid).time ∨ ((h mid).time = since ∧ etagArg < (h mid).etag))

/-- A Broadcast configuration with channel capacity 2. -/
def cfgCap2 : Configuration :=
  { allowChannelCreation := false, channelCapacity := 2
    concurrencyMode := concurrencyModeBroadcast, contentType := ""
    gcInterval := 0, maxChannels := 0, maxChannelIdleTime := 0
    pollingMechanism := pollingMechanismLong, pollingTimeout := 0 }

/-- A LIFO long-polling configuration with channel capacity 3. -/
def cfgLIFO : Configuration :=
  { allowChannelCreation := false, channelCapacity := 3
    concurrencyMode := concurrencyModeLIFO, contentType := ""
    gcInterval := 0, maxChannels := 0, maxChannelIdleTime := 0
    pollingMechanism := pollingMechanismLong, pollingTimeout := 0 }

/-- A configuration with `MaxChannels = 2` and `MaxChannelIdleTime = 0`:
per its own documentation the idle criterion is disabled (`0=unlimited`). -/
def cfgGCIdle0 : Configuration :=
  { allowChannelCreation := false, channelCapacity := 20
    concurrencyMode := concurrencyModeBroadcast, contentType := ""
    gcInterval := 60000000000, maxChannels := 2, maxChannelIdleTime := 0
    pollingMechanism := pollingMechanismLong, pollingTimeout := 0 }

/-- A channel with one parked, ready subscriber (slot 0). -/
def oneReadySubChannel : channel :=
  { newChannel "c" 0 with
      subscribers := [{ sid := 0, ready := true }]
      stats := { (newChannel "c" 0).stats with subscribers := 1 } }

/-- A stats snapshot that was requested at second 50 but never published. -/
def statsNeverPublished : Stats :=
  { created := 1, delivered := 2, lastPublished := 0, lastRequested := 50
    published := 3, subscribers := 0, queued := 0 }

/-! Helper lemmas characterising `publish`. -/

theorem publish_heap_ne (cfg : Configuration) (now : Int) (h : Heap) (c : channel)
    (mid : Nat) (q : Bool) (i : Nat) (hi : i ≠ mid) :
    (publish cfg now h c mid q).heap i = h i := by
  simp only [publish, hUpdate]
  cases c.lastMessage with
  | none => simp [hUpdate, hi]
  | some l =>
      by_cases ht : (if l = mid then { h mid with time := now, etag := 0 } else h l).time = now
        <;> simp [hUpdate, ht, hi]

theorem publish_heap_time (cfg : Configuration) (now : Int) (h : Heap) (c : channel)
    (mid : Nat) (q : Bool) :
    ((publish cfg now h c mid q).heap mid).time = now := by
  simp only [publish, hUpdate]
  cases c.lastMessage with
  | none => simp [hUpdate]
  | some l =>
      by_cases ht : (if l = mid then { h mid with time := now, etag := 0 } else h l).time = now
        <;> simp [hUpdate, ht]

theorem publish_heap_status (cfg : Configuration) (now : Int) (h : Heap) (c : channel)
    (mid : Nat) (q : Bool) (i : Nat) :
    ((publish cfg now h c mid q).heap i).status = (h i).status := by
  simp only [publish, hUpdate]
  cases c.lastMessage with
  | none => by_cases hi : i = mid <;> simp [hUpdate, hi]
  | some l =>
      by_cases ht : (if l = mid then { h mid with time := now, etag := 0 } else h l).time = now
        <;> by_cases hi : i = mid <;> simp [hUpdate, ht, hi]

theorem publish_heap_payload (cfg : Configuration) (now : Int) (h : Heap) (c : channel)
    (mid : Nat) (q : Bool) (i : Nat) :
    ((publish cfg now h c mid q).heap i).payload = (h i).payload := by
  simp only [publish, hUpdate]
  cases c.lastMessage with
  | none => by_cases hi : i = mid <;> simp [hUpdate, hi]
  | some l =>
      by_cases ht : (if l = mid then { h mid with time := now, etag := 0 } else h l).time = now
        <;> by_cases hi : i = mid <;> simp [hUpdate, ht, hi]

theorem publish_heap_etag_none (cfg : Configuration) (now : Int) (h : Heap) (c : channel)
    (mid : Nat) (q : Bool) (hlm : c.lastMessage = none) :
    ((publish cfg now h c mid q).heap mid).etag = 0 := by
  simp [publish, hUpdate, hlm]

theorem publish_heap_etag_same_second (cfg : Configuration) (now : Int) (h : Heap)
    (c : channel) (mid : Nat) (q : Bool) (l : Nat) (hlm : c.lastMessage = some l)
    (hne : l ≠ mid) (ht : (h l).time = now) :
    ((publish cfg now h c mid q).heap mid).etag = (h l).etag + 1 := by
  simp [publish, hUpdate, hlm, hne, ht]

theorem publish_heap_etag_new_second (cfg : Configuration) (now : Int) (h : Heap)
    (c : channel) (mid : Nat) (q : Bool) (l : Nat) (hlm : c.lastMessage = some l)
    (hne : l ≠ mid) (ht : (h l).time ≠ now) :
    ((publish cfg now h c mid q).heap mid).etag = 0 := by
  simp [publish, hUpdate, hlm, hne, ht]

theorem publish_heap_etag_self (cfg : Configuration) (now : Int) (h : Heap)
    (c : channel) (mid : Nat) (q : Bool) (hlm : c.lastMessage = some mid) :
    ((publish cfg now h c mid q).heap mid).etag = 1 := by
  simp [publish, hUpdate, hlm]

theorem publish_lastMessage (cfg : Configuration) (now : Int) (h : Heap) (c : channel)
    (mid : Nat) (q : Bool) :
    (publish cfg now h c mid q).chan.lastMessage = some mid := by
  simp only [publish]
  split <;> (try split) <;> rfl

theorem publish_subscribers (cfg : Configuration) (now : Int) (h : Heap) (c : channel)
    (mid : Nat) (q : Bool) :
    (publish cfg now h c mid q).chan.subscribers = [] := by
  simp only [publish]
  split <;> (try split) <;> rfl

theorem publish_n_eq (cfg : Configuration) (now : Int) (h : Heap) (c : channel)
    (mid : Nat) (q : Bool) :
    (publish cfg now h c mid q).n = (c.subscribers.filter (fun s => s.ready)).length := by
  rfl

theorem publish_outcomes_eq (cfg : Configuration) (now : Int) (h : Heap) (c : channel)
    (mid : Nat) (q : Bool) :
    (publish cfg now h c mid q).outcomes = c.subscribers.map (deliverOutcome mid) := by
  rfl

theorem publish_stats_published (cfg : Configuration) (now : Int) (h : Heap) (c : channel)
    (mid : Nat) (q : Bool) :
    (publish cfg now h c mid q).chan.stats.published = c.stats.published + 1 := by
  simp only [publish]
  split <;> (try split) <;> rfl

theorem publish_stats_delivered (cfg : Configuration) (now : Int) (h : Heap) (c : channel)
    (mid : Nat) (q : Bool) :
    (publish cfg now h c mid q).chan.stats.delivered
      = c.stats.delivered + ((c.subscribers.filter (fun s => s.ready)).length : Int) := by
  simp only [publish]
  split <;> (try split) <;> rfl

theorem publish_stats_subscribers (cfg : Configuration) (now : Int) (h : Heap) (c : channel)
    (mid : Nat) (q : Bool) :
    (publish cfg now h c mid q).chan.stats.subscribers = 0 := by
  simp only [publish]
  split <;> (try split) <;> rfl

theorem publish_stats_lastPublished (cfg : Configuration) (now : Int) (h : Heap) (c : channel)
    (mid : Nat) (q : Bool) :
    (publish cfg now h c mid q).chan.stats.lastPublished = now := by
  simp only [publish]
  split <;> (try split) <;> rfl

theorem publish_queue_not_queued (cfg : Configuration) (now : Int) (h : Heap) (c : channel)
    (mid : Nat) (q : Bool) (hq : ¬(q = true ∧ cfg.channelCapacity > 0)) :
    (publish cfg now h c mid q).chan.queue = c.queue ∧
    (publish cfg now h c mid q).chan.stats.queued = c.stats.queued := by
  simp only [publish]
  rw [if_neg hq]
  exact ⟨rfl, rfl⟩

theorem publish_queue_full (cfg : Configuration) (now : Int) (h : Heap) (c : channel)
    (mid : Nat) (q : Bool) (hq : q = true ∧ cfg.channelCapacity > 0)
    (hfull : (c.queue.length : Int) ≥ cfg.channelCapacity) :
    (publish cfg now h c mid q).chan.queue = mid :: c.queue.dropLast ∧
    (publish cfg now h c mid q).chan.stats.queued = c.stats.queued := by
  simp only [publish]
  rw [if_pos hq, if_pos hfull]
  exact ⟨rfl, rfl⟩

theorem publish_queue_room (cfg : Configuration) (now : Int) (h : Heap) (c : channel)
    (mid : Nat) (q : Bool) (hq : q = true ∧ cfg.channelCapacity > 0)
    (hroom : ¬((c.queue.length : Int) ≥ cfg.channelCapacity)) :
    (publish cfg now h c mid q).chan.queue = mid :: c.queue ∧
    (publish cfg now h c mid q).chan.stats.queued = c.stats.queued + 1 := by
  simp only [publish]
  rw [if_pos hq, if_neg hroom]
  exact ⟨rfl, rfl⟩

/-- The history loop returns exactly the first element (in traversal order)
whose stamp is lexicographically greater than `(since, etagArg)`. -/
theorem lookup_eq_find (h : Heap) (since etagArg : Int) (l : List Nat) :
    lookup h since etagArg l = l.find? (matchesAfter h since etagArg) := by
  induction l with
  | nil => rfl
  | cons mid rest ih =>
      by_cases hp : since < (h mid).time ∨ ((h mid).time = since ∧ etagArg < (h mid).etag)
      · have hb : matchesAfter h since etagArg mid = true := decide_eq_true hp
        rw [List.find?_cons_of_pos _ hb]
        have hge : (h mid).time ≥ since := by rcases hp with h1 | ⟨h1, h2⟩ <;> omega
        have hns : ¬((h mid).time = since ∧ (h mid).etag ≤ etagArg) := by
          rcases hp with h1 | ⟨h1, h2⟩ <;> (rintro ⟨a, b⟩; omega)
        simp [lookup, hge, hns]
      · have hb : ¬ matchesAfter h since etagArg mid = true := by
          simp only [matchesAfter, decide_eq_true_eq]
          exact hp
        rw [List.find?_cons_of_neg _ hb]
        push_neg at hp
        by_cases hge : (h mid).time ≥ since
        · have heq : (h mid).time = since := by omega
          have hle : (h mid).etag ≤ etagArg := by
            have := hp.2 heq
            omega
          simp [lookup, hge, heq, hle, ih]
        · simp [lookup, hge, ih]

/-- Claim C1: in Broadcast mode (where the history lookup always runs),
`Subscribe` returns the first queued message, walking the queue oldest to
newest, whose `(time, etag)` stamp is lexicographically greater than
`(since, etag)`; when it returns one, `stats.Delivered` grows by exactly one;
and a queued message whose time equals `since` with etag at most `etag` is
never the one returned. -/
theorem c1_subscribe_history (cfg : Configuration) (now : Int) (h : Heap)
    (c : channel) (since etagArg : Int) (ready : Bool)
    (hmode : cfg.concurrencyMode = concurrencyModeBroadcast) :
    (Subscribe cfg now h c since etagArg ready).message
      = c.queue.reverse.find? (matchesAfter h since etagArg) ∧
    ((Subscribe cfg now h c since etagArg ready).message.isSome = true →
      (Subscribe cfg now h c since etagArg ready).chan.stats.delivered
        = c.stats.delivered + 1) ∧
    (∀ mid, (Subscribe cfg now h c since etagArg ready).message = some mid →
      ¬((h mid).time = since ∧ (h mid).etag ≤ etagArg)) := by
  have hs : Subscribe cfg now h c since etagArg ready
      = subscribeTail cfg h { c with stats := { c.stats with lastRequested := now } }
          since etagArg ready [] none := by
    rw [Subscribe, hmode]
    rfl
  rw [hs]
  have hq : ({ c with stats := { c.stats with lastRequested := now } } : channel).queue
      = c.queue := rfl
  cases hfind : lookup h since etagArg c.queue.reverse with
  | none =>
      have hfind2 := hfind
      rw [lookup_eq_find] at hfind2
      by_cases hm : cfg.pollingMechanism = pollingMechanismInterval <;>
        simp [subscribeTail, hq, hfind, hfind2, hm]
  | some mid =>
      have hfind2 := hfind
      rw [lookup_eq_find] at hfind2
      have hmatch : matchesAfter h since etagArg mid = true :=
        List.find?_some hfind2
      have hprop : since < (h mid).time ∨ ((h mid).time = since ∧ etagArg < (h mid).etag) :=
        of_decide_eq_true hmatch
      refine ⟨?_, ?_, ?_⟩
      · simp [subscribeTail, hq, hfind, hfind2]
      · intro _
        simp [subscribeTail, hq, hfind]
      · intro mid2 hmid2
        have : mid2 = mid := by
          simp [subscribeTail, hq, hfind] at hmid2
          exact hmid2.symm
        subst this
        rintro ⟨ha, hb⟩
        rcases hprop with h1 | ⟨h1, h2⟩ <;> omega

/-- Concrete heap for the C1 witness: pointer 5 stamped `(10, 0)`. -/
def c1wHeap : Heap := hUpdate initHeap 5 { zeroMessage with time := 10 }

/-- Concrete channel for the C1 witness: queue holds pointer 5. -/
def c1wChan : channel := { newChannel "w" 0 with queue := [5] }

/-- Witness for C1 at a concrete input: the Broadcast-mode hypothesis holds for
`cfgCap2` and the subscribe call returns the queued message. -/
theorem c1_subscribe_history_witness :
    (Subscribe cfgCap2 11 c1wHeap c1wChan 0 0 false).message = some 5 ∧
    ((Subscribe cfgCap2 11 c1wHeap c1wChan 0 0 false).message
        = c1wChan.queue.reverse.find? (matchesAfter c1wHeap 0 0) ∧
      ((Subscribe cfgCap2 11 c1wHeap c1wChan 0 0 false).message.isSome = true →
        (Subscribe cfgCap2 11 c1wHeap c1wChan 0 0 false).chan.stats.delivered
          = c1wChan.stats.delivered + 1) ∧
      (∀ mid, (Subscribe cfgCap2 11 c1wHeap c1wChan 0 0 false).message = some mid →
        ¬((c1wHeap mid).time = 0 ∧ (c1wHeap mid).etag ≤ 0))) :=
  ⟨by decide, c1_subscribe_history cfgCap2 11 c1wHeap c1wChan 0 0 false (by decide)⟩

/-- Claim C7: under FILO, a `Subscribe` against a channel whose subscriber
count (kept equal to the parked-slot count) is positive returns no wait slot
and the shared `conflictMessage` (status 409 initially), leaving the heap, the
parked subscribers, the queue and all counters unchanged. -/
theorem c7_filo_conflict (cfg : Configuration) (now : Int) (h : Heap)
    (c : channel) (since etagArg : Int) (ready : Bool)
    (hmode : cfg.concurrencyMode = concurrencyModeFILO)
    (hinv : c.stats.subscribers = (c.subscribers.length : Int))
    (hne : c.subscribers ≠ []) :
    (Subscribe cfg now h c since etagArg ready).elem = none ∧
    (Subscribe cfg now h c since etagArg ready).message = some conflictId ∧
    (initHeap conflictId).status = 409 ∧
    (Subscribe cfg now h c since etagArg ready).heap = h ∧
    (Subscribe cfg now h c since etagArg ready).chan.subscribers = c.subscribers ∧
    (Subscribe cfg now h c since etagArg ready).chan.queue = c.queue ∧
    (Subscribe cfg now h c since etagArg ready).woken = [] ∧
    (Subscribe cfg now h c since etagArg ready).chan.stats.subscribers
      = c.stats.subscribers ∧
    (Subscribe cfg now h c since etagArg ready).chan.stats.delivered
      = c.stats.delivered ∧
    (Subscribe cfg now h c since etagArg ready).chan.stats.queued
      = c.stats.queued := by
  have hpos : c.stats.subscribers > 0 := by
    rw [hinv]
    cases hcs : c.subscribers with
    | nil => exact absurd hcs hne
    | cons a l => simp
  have hs : Subscribe cfg now h c since etagArg ready
      = { heap := h
          chan := { c with stats := { c.stats with lastRequested := now } }
          elem := none, message := some conflictId
          woken := [], pubN := none, hit := false } := by
    rw [Subscribe, hmode]
    rw [if_neg (by decide), if_pos ⟨rfl, hpos⟩]
  rw [hs]
  exact ⟨rfl, rfl, rfl, rfl, rfl, rfl, rfl, rfl, rfl, rfl⟩

/-- Witness for C7 at a concrete input: FILO channel with one parked
subscriber. -/
def c7wChan : channel :=
  { newChannel "w" 0 with
      subscribers := [{ sid := 3, ready := true }]
      stats := { (newChannel "w" 0).stats with subscribers := 1 } }

/-- A FILO long-polling configuration. -/
def cfgFILO : Configuration :=
  { allowChannelCreation := false, channelCapacity := 3
    concurrencyMode := concurrencyModeFILO, contentType := ""
    gcInterval := 0, maxChannels := 0, maxChannelIdleTime := 0
    pollingMechanism := pollingMechanismLong, pollingTimeout := 0 }

/-- Witness for C7: the hypotheses hold at `cfgFILO`/`c7wChan` and the
conflict short-circuit fires. -/
theorem c7_filo_conflict_witness :
    (Subscribe cfgFILO 9 initHeap c7wChan 0 0 false).elem = none ∧
    (Subscribe cfgFILO 9 initHeap c7wChan 0 0 false).message = some conflictId ∧
    (initHeap conflictId).status = 409 ∧
    (Subscribe cfgFILO 9 initHeap c7wChan 0 0 false).heap = initHeap ∧
    (Subscribe cfgFILO 9 initHeap c7wChan 0 0 false).chan.subscribers
      = c7wChan.subscribers ∧
    (Subscribe cfgFILO 9 initHeap c7wChan 0 0 false).chan.queue = c7wChan.queue ∧
    (Subscribe cfgFILO 9 initHeap c7wChan 0 0 false).woken = [] ∧
    (Subscribe cfgFILO 9 initHeap c7wChan 0 0 false).chan.stats.subscribers
      = c7wChan.stats.subscribers ∧
    (Subscribe cfgFILO 9 initHeap c7wChan 0 0 false).chan.stats.delivered
      = c7wChan.stats.delivered ∧
    (Subscribe cfgFILO 9 initHeap c7wChan 0 0 false).chan.stats.queued
      = c7wChan.stats.queued :=
  c7_filo_conflict cfgFILO 9 initHeap c7wChan 0 0 false (by decide) (by decide)
    (by decide)

/-! Helper lemmas characterising `subscribeTail` and further `publish`
projections. -/

theorem publish_nextSid (cfg : Configuration) (now : Int) (h : Heap) (c : channel)
    (mid : Nat) (q : Bool) :
    (publish cfg now h c mid q).chan.nextSid = c.nextSid := by
  simp only [publish]
  split <;> (try split) <;> rfl

theorem subscribeTail_heap (cfg : Configuration) (h : Heap) (c : channel)
    (since etagArg : Int) (ready : Bool) (w : List (Nat × Option Nat))
    (p : Option Nat) :
    (subscribeTail cfg h c since etagArg ready w p).heap = h := by
  simp only [subscribeTail]
  cases lookup h since etagArg c.queue.reverse <;> simp <;> split <;> rfl

theorem subscribeTail_woken (cfg : Configuration) (h : Heap) (c : channel)
    (since etagArg : Int) (ready : Bool) (w : List (Nat × Option Nat))
    (p : Option Nat) :
    (subscribeTail cfg h c since etagArg ready w p).woken = w := by
  simp only [subscribeTail]
  cases lookup h since etagArg c.queue.reverse <;> simp <;> split <;> rfl

theorem subscribeTail_pubN (cfg : Configuration) (h : Heap) (c : channel)
    (since etagArg : Int) (ready : Bool) (w : List (Nat × Option Nat))
    (p : Option Nat) :
    (subscribeTail cfg h c since etagArg ready w p).pubN = p := by
  simp only [subscribeTail]
  cases lookup h since etagArg c.queue.reverse <;> simp <;> split <;> rfl

theorem subscribeTail_message (cfg : Configuration) (h : Heap) (c : channel)
    (since etagArg : Int) (ready : Bool) (w : List (Nat × Option Nat))
    (p : Option Nat) :
    (subscribeTail cfg h c since etagArg ready w p).message
      = lookup h since etagArg c.queue.reverse := by
  simp only [subscribeTail]
  cases lookup h since etagArg c.queue.reverse <;> simp <;> split <;> rfl

theorem subscribeTail_hit (cfg : Configuration) (h : Heap) (c : channel)
    (since etagArg : Int) (ready : Bool) (w : List (Nat × Option Nat))
    (p : Option Nat) :
    (subscribeTail cfg h c since etagArg ready w p).hit
      = (lookup h since etagArg c.queue.reverse).isSome := by
  simp only [subscribeTail]
  cases lookup h since etagArg c.queue.reverse <;> simp <;> split <;> rfl

theorem subscribeTail_of_some (cfg : Configuration) (h : Heap) (c : channel)
    (since etagArg : Int) (ready : Bool) (w : List (Nat × Option Nat))
    (p : Option Nat) (mid : Nat)
    (hfind : lookup h since etagArg c.queue.reverse = some mid) :
    (subscribeTail cfg h c since etagArg ready w p).elem = none ∧
    (subscribeTail cfg h c since etagArg ready w p).chan.subscribers = c.subscribers ∧
    (subscribeTail cfg h c since etagArg ready w p).chan.stats.subscribers
      = c.stats.subscribers ∧
    (subscribeTail cfg h c since etagArg ready w p).chan.stats.delivered
      = c.stats.delivered + 1 ∧
    (subscribeTail cfg h c since etagArg ready w p).chan.stats.published
      = c.stats.published ∧
    (subscribeTail cfg h c since etagArg ready w p).chan.queue = c.queue := by
  simp [subscribeTail, hfind]

theorem subscribeTail_of_none_long (cfg : Configuration) (h : Heap) (c : channel)
    (since etagArg : Int) (ready : Bool) (w : List (Nat × Option Nat))
    (p : Option Nat)
    (hfind : lookup h since etagArg c.queue.reverse = none)
    (hmech : ¬ cfg.pollingMechanism = pollingMechanismInterval) :
    (subscribeTail cfg h c since etagArg ready w p).elem = some c.nextSid ∧
    (subscribeTail cfg h c since etagArg ready w p).chan.subscribers
      = c.subscribers ++ [{ sid := c.nextSid, ready := ready }] ∧
    (subscribeTail cfg h c since etagArg ready w p).chan.stats.subscribers
      = c.stats.subscribers + 1 ∧
    (subscribeTail cfg h c since etagArg ready w p).chan.stats.delivered
      = c.stats.delivered ∧
    (subscribeTail cfg h c since etagArg ready w p).chan.stats.published
      = c.stats.published ∧
    (subscribeTail cfg h c since etagArg ready w p).chan.queue = c.queue := by
  simp [subscribeTail, hfind, hmech]

theorem subscribeTail_of_none_interval (cfg : Configuration) (h : Heap) (c : channel)
    (since etagArg : Int) (ready : Bool) (w : List (Nat × Option Nat))
    (p : Option Nat)
    (hfind : lookup h since etagArg c.queue.reverse = none)
    (hmech : cfg.pollingMechanism = pollingMechanismInterval) :
    (subscribeTail cfg h c since etagArg ready w p).elem = none ∧
    (subscribeTail cfg h c since etagArg ready w p).chan = c := by
  simp [subscribeTail, hfind, hmech]

/-- Claim C6, amended: the synthetic `Conflict` and `Gone` messages start with
status 409/410, nil payloads and zero stamps, and `publish` never alters any
message's status or payload; but `publish` stamps the published message in
place, so a synthetic delivered through `publish` (the LIFO conflict, or
`Gone` on DELETE/GC) carries the publish time in `time`, not zero. -/
theorem c6_synthetic_messages (cfg : Configuration) (now : Int) (h : Heap)
    (c : channel) (mid : Nat) (q : Bool) (i : Nat) :
    (initHeap conflictId).status = 409 ∧ (initHeap conflictId).payload = none ∧
    (initHeap conflictId).time = 0 ∧ (initHeap conflictId).etag = 0 ∧
    (initHeap goneId).status = 410 ∧ (initHeap goneId).payload = none ∧
    (initHeap goneId).time = 0 ∧ (initHeap goneId).etag = 0 ∧
    ((publish cfg now h c mid q).heap i).status = (h i).status ∧
    ((publish cfg now h c mid q).heap i).payload = (h i).payload ∧
    ((publish cfg now h c mid q).heap mid).time = now :=
  ⟨rfl, rfl, rfl, rfl, rfl, rfl, rfl, rfl,
    publish_heap_status cfg now h c mid q i,
    publish_heap_payload cfg now h c mid q i,
    publish_heap_time cfg now h c mid q⟩

/-- Claim C8: under LIFO, `Subscribe` first publishes the synthetic Conflict
(status 409) to every parked subscriber — with all slots ready, every one of
the N slots is closed carrying the conflict message and the internal delivered
count is N — then the request proceeds with the normal history lookup over the
unchanged queue; on a hit the subscriber set stays empty with
`stats.Subscribers = 0`, and with no hit in Long mode a single fresh wait slot
is parked. -/
theorem c8_lifo_wakes_all (cfg : Configuration) (now : Int) (h : Heap)
    (c : channel) (since etagArg : Int) (ready : Bool)
    (hmode : cfg.concurrencyMode = concurrencyModeLIFO)
    (hready : ∀ s ∈ c.subscribers, s.ready = true)
    (hconf : (h conflictId).status = 409) :
    (Subscribe cfg now h c since etagArg ready).woken
      = c.subscribers.map (fun s => (s.sid, some conflictId)) ∧
    (Subscribe cfg now h c since etagArg ready).pubN
      = some c.subscribers.length ∧
    ((Subscribe cfg now h c since etagArg ready).heap conflictId).status = 409 ∧
    (Subscribe cfg now h c since etagArg ready).message
      = lookup (Subscribe cfg now h c since etagArg ready).heap since etagArg
          c.queue.reverse ∧
    ((Subscribe cfg now h c since etagArg ready).message.isSome = true →
      (Subscribe cfg now h c since etagArg ready).chan.subscribers = [] ∧
      (Subscribe cfg now h c since etagArg ready).chan.stats.subscribers = 0) ∧
    ((Subscribe cfg now h c since etagArg ready).message = none →
      cfg.pollingMechanism = pollingMechanismLong →
      (Subscribe cfg now h c since etagArg ready).elem = some c.nextSid ∧
      (Subscribe cfg now h c since etagArg ready).chan.subscribers
        = [{ sid := c.nextSid, ready := ready }] ∧
      (Subscribe cfg now h c since etagArg ready).chan.stats.subscribers = 1) := by
  have hs : Subscribe cfg now h c since etagArg ready
      = subscribeTail cfg
          (publish cfg now h { c with stats := { c.stats with lastRequested := now } }
            conflictId false).heap
          (publish cfg now h { c with stats := { c.stats with lastRequested := now } }
            conflictId false).chan
          since etagArg ready
          (publish cfg now h { c with stats := { c.stats with lastRequested := now } }
            conflictId false).outcomes
          (some (publish cfg now h { c with stats := { c.stats with lastRequested := now } }
            conflictId false).n) := by
    rw [Subscribe, hmode]
    rfl
  have hc0subs :
      ({ c with stats := { c.stats with lastRequested := now } } : channel).subscribers
        = c.subscribers := rfl
  have hprq := publish_queue_not_queued cfg now h
    { c with stats := { c.stats with lastRequested := now } } conflictId false
    (by simp)
  have hprqueue :
      (publish cfg now h { c with stats := { c.stats with lastRequested := now } }
        conflictId false).chan.queue = c.queue := hprq.1
  rw [hs]
  refine ⟨?_, ?_, ?_, ?_, ?_, ?_⟩
  · rw [subscribeTail_woken, publish_outcomes_eq, hc0subs]
    exact List.map_congr_left fun s hsmem => by
      simp [deliverOutcome, hready s hsmem]
  · rw [subscribeTail_pubN, publish_n_eq, hc0subs]
    congr 1
    rw [List.filter_eq_self.2 hready]
  · rw [subscribeTail_heap, publish_heap_status]
    exact hconf
  · rw [subscribeTail_message, subscribeTail_heap, hprqueue]
  · intro hsome
    rw [subscribeTail_message, hprqueue] at hsome
    cases hfind : lookup
        (publish cfg now h { c with stats := { c.stats with lastRequested := now } }
          conflictId false).heap since etagArg c.queue.reverse with
    | none => rw [hfind] at hsome; simp at hsome
    | some mid =>
        have hst := subscribeTail_of_some cfg
          (publish cfg now h { c with stats := { c.stats with lastRequested := now } }
            conflictId false).heap
          (publish cfg now h { c with stats := { c.stats with lastRequested := now } }
            conflictId false).chan
          since etagArg ready
          (publish cfg now h { c with stats := { c.stats with lastRequested := now } }
            conflictId false).outcomes
          (some (publish cfg now h
            { c with stats := { c.stats with lastRequested := now } }
            conflictId false).n)
          mid (by rw [hprqueue]; exact hfind)
        refine ⟨?_, ?_⟩
        · rw [hst.2.1, publish_subscribers]
        · rw [hst.2.2.1, publish_stats_subscribers]
  · intro hnone hmech
    rw [subscribeTail_message, hprqueue] at hnone
    have hmech2 : ¬ cfg.pollingMechanism = pollingMechanismInterval := by
      rw [hmech]
      decide
    have hst := subscribeTail_of_none_long cfg
      (publish cfg now h { c with stats := { c.stats with lastRequested := now } }
        conflictId false).heap
      (publish cfg now h { c with stats := { c.stats with lastRequested := now } }
        conflictId false).chan
      since etagArg ready
      (publish cfg now h { c with stats := { c.stats with lastRequested := now } }
        conflictId false).outcomes
      (some (publish cfg now h
        { c with stats := { c.stats with lastRequested := now } }
        conflictId false).n)
      (by rw [hprqueue]; exact hnone) hmech2
    refine ⟨?_, ?_, ?_⟩
    · rw [hst.1, publish_nextSid]
    · rw [hst.2.1, publish_subscribers, publish_nextSid]
      rfl
    · rw [hst.2.2.1, publish_stats_subscribers]
      decide

/-- Concrete channel for the C8 witness: two parked, ready subscribers. -/
def c8wChan : channel :=
  { newChannel "w" 0 with
      subscribers := [{ sid := 0, ready := true }, { sid := 1, ready := true }]
      nextSid := 2
      stats := { (newChannel "w" 0).stats with subscribers := 2 } }

/-- Witness for C8: LIFO channel with two ready subscribers and an empty
queue; both are woken with the conflict message and a fresh slot parks. -/
theorem c8_lifo_wakes_all_witness :
    ((Subscribe cfgLIFO 9 initHeap c8wChan 0 0 true).woken
        = c8wChan.subscribers.map (fun s => (s.sid, some conflictId)) ∧
      (Subscribe cfgLIFO 9 initHeap c8wChan 0 0 true).pubN
        = some c8wChan.subscribers.length ∧
      ((Subscribe cfgLIFO 9 initHeap c8wChan 0 0 true).heap conflictId).status = 409 ∧
      (Subscribe cfgLIFO 9 initHeap c8wChan 0 0 true).message
        = lookup (Subscribe cfgLIFO 9 initHeap c8wChan 0 0 true).heap 0 0
            c8wChan.queue.reverse ∧
      ((Subscribe cfgLIFO 9 initHeap c8wChan 0 0 true).message.isSome = true →
        (Subscribe cfgLIFO 9 initHeap c8wChan 0 0 true).chan.subscribers = [] ∧
        (Subscribe cfgLIFO 9 initHeap c8wChan 0 0 true).chan.stats.subscribers = 0) ∧
      ((Subscribe cfgLIFO 9 initHeap c8wChan 0 0 true).message = none →
        cfgLIFO.pollingMechanism = pollingMechanismLong →
        (Subscribe cfgLIFO 9 initHeap c8wChan 0 0 true).elem = some c8wChan.nextSid ∧
        (Subscribe cfgLIFO 9 initHeap c8wChan 0 0 true).chan.subscribers
          = [{ sid := c8wChan.nextSid, ready := true }] ∧
        (Subscribe cfgLIFO 9 initHeap c8wChan 0 0 true).chan.stats.subscribers = 1)) ∧
    (Subscribe cfgLIFO 9 initHeap c8wChan 0 0 true).woken
      = [(0, some conflictId), (1, some conflictId)] :=
  ⟨c8_lifo_wakes_all cfgLIFO 9 initHeap c8wChan 0 0 true (by decide)
      (by decide) (by decide),
    by decide⟩

/-- Claim C10: `Publish` stamps the very message object it is handed, so
publishing the same pointer twice (with queueing, capacity at least 2) leaves
the queue holding that pointer twice, and the single object carries only the
stamp of the second publish — the first stamp `(t1, 0)` has been
overwritten. -/
theorem c10_publish_in_place (cfg : Configuration) (t1 t2 : Int) (mid : Nat)
    (h0 : Heap) (cid : String) (now0 : Int)
    (hcap : cfg.channelCapacity ≥ 2) :
    ((publish cfg t1 h0 (newChannel cid now0) mid true).heap mid).time = t1 ∧
    ((publish cfg t1 h0 (newChannel cid now0) mid true).heap mid).etag = 0 ∧
    ((publish cfg t2 (publish cfg t1 h0 (newChannel cid now0) mid true).heap
        (publish cfg t1 h0 (newChannel cid now0) mid true).chan mid true).chan.queue
      = [mid, mid]) ∧
    ((publish cfg t2 (publish cfg t1 h0 (newChannel cid now0) mid true).heap
        (publish cfg t1 h0 (newChannel cid now0) mid true).chan mid true).heap mid).time
      = t2 ∧
    ((publish cfg t2 (publish cfg t1 h0 (newChannel cid now0) mid true).heap
        (publish cfg t1 h0 (newChannel cid now0) mid true).chan mid true).heap mid).etag
      = 1 ∧
    ((publish cfg t2 (publish cfg t1 h0 (newChannel cid now0) mid true).heap
          (publish cfg t1 h0 (newChannel cid now0) mid true).chan mid true).heap mid).etag
      ≠ ((publish cfg t1 h0 (newChannel cid now0) mid true).heap mid).etag := by
  have hq : (true = true ∧ cfg.channelCapacity > 0) := ⟨rfl, by omega⟩
  have h1time := publish_heap_time cfg t1 h0 (newChannel cid now0) mid true
  have h1etag := publish_heap_etag_none cfg t1 h0 (newChannel cid now0) mid true rfl
  have h1q := publish_queue_room cfg t1 h0 (newChannel cid now0) mid true hq
    (by simp [newChannel]; omega)
  have h1lm := publish_lastMessage cfg t1 h0 (newChannel cid now0) mid true
  have h2time := publish_heap_time cfg t2
    (publish cfg t1 h0 (newChannel cid now0) mid true).heap
    (publish cfg t1 h0 (newChannel cid now0) mid true).chan mid true
  have h2etag := publish_heap_etag_self cfg t2
    (publish cfg t1 h0 (newChannel cid now0) mid true).heap
    (publish cfg t1 h0 (newChannel cid now0) mid true).chan mid true h1lm
  have h2q := publish_queue_room cfg t2
    (publish cfg t1 h0 (newChannel cid now0) mid true).heap
    (publish cfg t1 h0 (newChannel cid now0) mid true).chan mid true hq
    (by
      rw [h1q.1]
      simp [newChannel]
      omega)
  refine ⟨h1time, h1etag, ?_, h2time, h2etag, ?_⟩
  · rw [h2q.1, h1q.1]
    simp [newChannel]
  · rw [h2etag, h1etag]
    decide

/-- Witness for C10: capacity-2 configuration, pointer 7, seconds 5 and 6. -/
theorem c10_publish_in_place_witness :
    ((publish cfgCap2 5 initHeap (newChannel "w" 0) 7 true).heap 7).time = 5 ∧
    ((publish cfgCap2 5 initHeap (newChannel "w" 0) 7 true).heap 7).etag = 0 ∧
    ((publish cfgCap2 6 (publish cfgCap2 5 initHeap (newChannel "w" 0) 7 true).heap
        (publish cfgCap2 5 initHeap (newChannel "w" 0) 7 true).chan 7 true).chan.queue
      = [7, 7]) ∧
    ((publish cfgCap2 6 (publish cfgCap2 5 initHeap (newChannel "w" 0) 7 true).heap
        (publish cfgCap2 5 initHeap (newChannel "w" 0) 7 true).chan 7 true).heap 7).time
      = 6 ∧
    ((publish cfgCap2 6 (publish cfgCap2 5 initHeap (newChannel "w" 0) 7 true).heap
        (publish cfgCap2 5 initHeap (newChannel "w" 0) 7 true).chan 7 true).heap 7).etag
      = 1 ∧
    ((publish cfgCap2 6 (publish cfgCap2 5 initHeap (newChannel "w" 0) 7 true).heap
          (publish cfgCap2 5 initHeap (newChannel "w" 0) 7 true).chan 7 true).heap 7).etag
      ≠ ((publish cfgCap2 5 initHeap (newChannel "w" 0) 7 true).heap 7).etag :=
  c10_publish_in_place cfgCap2 5 6 7 initHeap "w" 0 (by decide)

theorem take_append_take (n : Nat) (xs ys : List Nat) :
    List.take n (xs ++ List.take n ys) = List.take n (xs ++ ys) := by
  rw [List.take_append_eq_append_take, List.take_append_eq_append_take,
    List.take_take, Nat.min_eq_left (by omega : n - xs.length ≤ n)]

/-- One queued publish truncates the extended queue to the capacity. -/
theorem publish_queue_step (cfg : Configuration) (now : Int) (h : Heap)
    (c : channel) (mid : Nat) (hcap : cfg.channelCapacity > 0)
    (hlen : (c.queue.length : Int) ≤ cfg.channelCapacity) :
    (publish cfg now h c mid true).chan.queue
      = List.take cfg.channelCapacity.toNat (mid :: c.queue) ∧
    (((publish cfg now h c mid true).chan.queue.length : Int)
      ≤ cfg.channelCapacity) := by
  by_cases hfull : (c.queue.length : Int) ≥ cfg.channelCapacity
  · have h1 := publish_queue_full cfg now h c mid true ⟨rfl, hcap⟩ hfull
    have hlen2 : c.queue.length = cfg.channelCapacity.toNat := by omega
    cases hcapN : cfg.channelCapacity.toNat with
    | zero => omega
    | succ k =>
        constructor
        · rw [h1.1, List.take_succ_cons]
          congr 1
          rw [List.dropLast_eq_take]
          congr 1
          omega
        · rw [h1.1]
          simp
          omega
  · have h1 := publish_queue_room cfg now h c mid true ⟨rfl, hcap⟩ hfull
    constructor
    · rw [h1.1, List.take_of_length_le]
      simp
      omega
    · rw [h1.1]
      simp
      omega

/-- Any sequence of queued publishes leaves the queue holding the most recent
messages, newest first, truncated to the capacity. -/
theorem runPubs_queue (cfg : Configuration) (hcap : cfg.channelCapacity > 0) :
    ∀ (ops : List PubOp) (h : Heap) (c : channel),
      (∀ op ∈ ops, op.q = true) →
      ((c.queue.length : Int) ≤ cfg.channelCapacity) →
      (runPubs cfg (h, c) ops).2.queue
        = List.take cfg.channelCapacity.toNat
            ((ops.map (fun op => op.mid)).reverse ++ c.queue) ∧
      (((runPubs cfg (h, c) ops).2.queue.length : Int) ≤ cfg.channelCapacity) := by
  intro ops
  induction ops with
  | nil =>
      intro h c _ hlen
      refine ⟨?_, by simpa [runPubs] using hlen⟩
      simp only [runPubs, List.map_nil, List.reverse_nil, List.nil_append]
      exact (List.take_of_length_le (by omega)).symm
  | cons op rest ih =>
      intro h c hq hlen
      have hopq : op.q = true := hq op (List.mem_cons_self op rest)
      have hstep := publish_queue_step cfg op.now h c op.mid hcap hlen
      rw [← hopq] at hstep
      have hrun : runPubs cfg (h, c) (op :: rest)
          = runPubs cfg ((publish cfg op.now h c op.mid op.q).heap,
              (publish cfg op.now h c op.mid op.q).chan) rest := rfl
      have hih := ih (publish cfg op.now h c op.mid op.q).heap
        (publish cfg op.now h c op.mid op.q).chan
        (fun o ho => hq o (List.mem_cons_of_mem op ho)) hstep.2
      rw [hrun]
      refine ⟨?_, hih.2⟩
      rw [hih.1, hstep.1, take_append_take]
      simp [List.append_assoc]

/-- Claim C2: with positive `ChannelCapacity`, one queued publish on a full
queue drops the tail (the oldest message) without touching `stats.Queued` and
inserts at the head, while a publish on a non-full queue inserts at the head
and bumps `stats.Queued`; and across any sequence of queued publishes from a
fresh channel, the queue is exactly the most recent messages truncated to the
capacity, so its length never exceeds `ChannelCapacity`. -/
theorem c2_queue_bound (cfg : Configuration) (hcap : cfg.channelCapacity > 0) :
    (∀ (now : Int) (h : Heap) (c : channel) (mid : Nat),
      (((c.queue.length : Int) ≥ cfg.channelCapacity) →
        (publish cfg now h c mid true).chan.queue = mid :: c.queue.dropLast ∧
        (publish cfg now h c mid true).chan.stats.queued = c.stats.queued) ∧
      (¬((c.queue.length : Int) ≥ cfg.channelCapacity) →
        (publish cfg now h c mid true).chan.queue = mid :: c.queue ∧
        (publish cfg now h c mid true).chan.stats.queued = c.stats.queued + 1)) ∧
    (∀ (ops : List PubOp) (h : Heap) (cid : String) (now0 : Int),
      (∀ op ∈ ops, op.q = true) →
      (runPubs cfg (h, newChannel cid now0) ops).2.queue
        = List.take cfg.channelCapacity.toNat ((ops.map (fun op => op.mid)).reverse) ∧
      (((runPubs cfg (h, newChannel cid now0) ops).2.queue.length : Int)
        ≤ cfg.channelCapacity)) := by
  constructor
  · intro now h c mid
    exact ⟨fun hfull => publish_queue_full cfg now h c mid true ⟨rfl, hcap⟩ hfull,
           fun hroom => publish_queue_room cfg now h c mid true ⟨rfl, hcap⟩ hroom⟩
  · intro ops h cid now0 hq
    have hmain := runPubs_queue cfg hcap ops h (newChannel cid now0) hq
      (by simp [newChannel]; omega)
    simpa [newChannel] using hmain

/-- Witness for C2: capacity 2, three queued publishes; the queue retains the
most recent two messages, newest first. -/
theorem c2_queue_bound_witness :
    (runPubs cfgCap2 (initHeap, newChannel "w" 0)
        [{ now := 5, mid := 11, q := true }, { now := 6, mid := 12, q := true },
          { now := 7, mid := 13, q := true }]).2.queue = [13, 12] ∧
    ((∀ (now : Int) (h : Heap) (c : channel) (mid : Nat),
      (((c.queue.length : Int) ≥ cfgCap2.channelCapacity) →
        (publish cfgCap2 now h c mid true).chan.queue = mid :: c.queue.dropLast ∧
        (publish cfgCap2 now h c mid true).chan.stats.queued = c.stats.queued) ∧
      (¬((c.queue.length : Int) ≥ cfgCap2.channelCapacity) →
        (publish cfgCap2 now h c mid true).chan.queue = mid :: c.queue ∧
        (publish cfgCap2 now h c mid true).chan.stats.queued = c.stats.queued + 1)) ∧
    (∀ (ops : List PubOp) (h : Heap) (cid : String) (now0 : Int),
      (∀ op ∈ ops, op.q = true) →
      (runPubs cfgCap2 (h, newChannel cid now0) ops).2.queue
        = List.take cfgCap2.channelCapacity.toNat
            ((ops.map (fun op => op.mid)).reverse) ∧
      (((runPubs cfgCap2 (h, newChannel cid now0) ops).2.queue.length : Int)
        ≤ cfgCap2.channelCapacity))) :=
  ⟨by decide, c2_queue_bound cfgCap2 (by decide)⟩

/-- Non-strict lexicographic order on `(time, etag)` stamps. -/
def stampLe (a b : Message) : Prop :=
  stampLt a b ∨ (a.time = b.time ∧ a.etag = b.etag)

theorem stampLt_trans {a b c : Message} (h1 : stampLt a b) (h2 : stampLt b c) :
    stampLt a c := by
  unfold stampLt at *
  omega

theorem stampLe_lt_trans {a b c : Message} (h1 : stampLe a b) (h2 : stampLt b c) :
    stampLt a c := by
  unfold stampLe stampLt at *
  omega

/-- The stamp a publish writes is strictly above the previous message's stamp,
provided the previous message is a different object whose time is not in the
future. -/
theorem publish_stamp_gt (cfg : Configuration) (now : Int) (h : Heap)
    (c : channel) (mid : Nat) (q : Bool) (l : Nat)
    (hlm : c.lastMessage = some l) (hne : l ≠ mid) (ht : (h l).time ≤ now) :
    stampLt (h l) ((publish cfg now h c mid q).heap mid) := by
  have htime := publish_heap_time cfg now h c mid q
  by_cases heq : (h l).time = now
  · have hetag := publish_heap_etag_same_second cfg now h c mid q l hlm hne heq
    unfold stampLt
    right
    exact ⟨by rw [htime, heq], by rw [hetag]; omega⟩
  · have hetag := publish_heap_etag_new_second cfg now h c mid q l hlm hne heq
    unfold stampLt
    left
    rw [htime]
    omega

/-- Transferring a pairwise stamp ordering along a heap that agrees on the
list's members. -/
theorem pairwise_heap_congr (h h2 : Heap) (l : List Nat)
    (hsame : ∀ m ∈ l, h2 m = h m)
    (hp : l.Pairwise (fun a b => stampLt (h b) (h a))) :
    l.Pairwise (fun a b => stampLt (h2 b) (h2 a)) :=
  List.Pairwise.imp_of_mem
    (fun ha hb hr => by rw [hsame _ ha, hsame _ hb]; exact hr) hp

/-- The publish-trace invariant: queue members come from `used`, the last
message dominates the queue, an unset last message means an empty queue, and
the queue is strictly descending by stamp (newest first). -/
def chanInv (h : Heap) (c : channel) (used : List Nat) : Prop :=
  (∀ m ∈ c.queue, m ∈ used) ∧
  (∀ l, c.lastMessage = some l → l ∈ used ∧ ∀ m ∈ c.queue, stampLe (h m) (h l)) ∧
  (c.lastMessage = none → c.queue = []) ∧
  List.Pairwise (fun a b => stampLt (h b) (h a)) c.queue

theorem chanInv_mono (h : Heap) (c : channel) {u1 u2 : List Nat}
    (hsub : ∀ m, m ∈ u1 → m ∈ u2) (hi : chanInv h c u1) : chanInv h c u2 :=
  ⟨fun m hm => hsub _ (hi.1 m hm),
    fun l hl => ⟨hsub _ (hi.2.1 l hl).1, (hi.2.1 l hl).2⟩,
    hi.2.2.1, hi.2.2.2⟩

/-- Main induction for claim C3: along a clock-monotone trace of publishes of
pairwise-distinct fresh message objects, the invariant is preserved, untouched
objects keep their stamps, every new stamp strictly exceeds the previous last
message's stamp, and the assigned stamps are strictly increasing in insertion
order. -/
theorem runPubs_strict (cfg : Configuration) :
    ∀ (ops : List PubOp) (h : Heap) (c : channel) (used : List Nat),
      chanInv h c used →
      (∀ l, c.lastMessage = some l → ∀ x, ops.head? = some x → (h l).time ≤ x.now) →
      List.Chain' (fun a b => a.now ≤ b.now) ops →
      (ops.map (fun op => op.mid)).Nodup →
      (∀ op ∈ ops, op.mid ∉ used) →
      chanInv (runPubs cfg (h, c) ops).1 (runPubs cfg (h, c) ops).2
        ((ops.map (fun op => op.mid)) ++ used) ∧
      (∀ m ∈ used, (runPubs cfg (h, c) ops).1 m = h m) ∧
      (∀ b ∈ ops.map (fun op => op.mid), ∀ l, c.lastMessage = some l →
        stampLt (h l) ((runPubs cfg (h, c) ops).1 b)) ∧
      List.Pairwise (fun a b => stampLt ((runPubs cfg (h, c) ops).1 a)
        ((runPubs cfg (h, c) ops).1 b)) (ops.map (fun op => op.mid)) := by
  intro ops
  induction ops with
  | nil =>
      intro h c used hInv _ _ _ _
      exact ⟨by simpa [runPubs] using hInv, fun m _ => rfl,
        by simp, by simp⟩
  | cons op rest ih =>
      intro h c used hInv htime hchain hnodup hfresh
      have hfreshmid : op.mid ∉ used := hfresh op (List.mem_cons_self op rest)
      have hheap_same : ∀ m ∈ used,
          (publish cfg op.now h c op.mid op.q).heap m = h m := fun m hm =>
        publish_heap_ne cfg op.now h c op.mid op.q m
          (fun e => hfreshmid (e ▸ hm))
      have hnew_gt : ∀ l, c.lastMessage = some l →
          stampLt (h l) ((publish cfg op.now h c op.mid op.q).heap op.mid) := by
        intro l hl
        have hIl := hInv.2.1 l hl
        exact publish_stamp_gt cfg op.now h c op.mid op.q l hl
          (fun e => hfreshmid (e ▸ hIl.1)) (htime l hl op rfl)
      have hqueue_lt : ∀ m ∈ c.queue,
          stampLt ((publish cfg op.now h c op.mid op.q).heap m)
            ((publish cfg op.now h c op.mid op.q).heap op.mid) := by
        intro m hm
        cases hl : c.lastMessage with
        | none =>
            rw [hInv.2.2.1 hl] at hm
            cases hm
        | some l =>
            have hmu : m ∈ used := hInv.1 m hm
            rw [hheap_same m hmu]
            exact stampLe_lt_trans ((hInv.2.1 l hl).2 m hm) (hnew_gt l hl)
      have hqcases : (publish cfg op.now h c op.mid op.q).chan.queue = c.queue ∨
          ∃ t, t.Sublist c.queue ∧
            (publish cfg op.now h c op.mid op.q).chan.queue = op.mid :: t := by
        by_cases hq : (op.q = true ∧ cfg.channelCapacity > 0)
        · by_cases hfull : ((c.queue.length : Int) ≥ cfg.channelCapacity)
          · exact Or.inr ⟨c.queue.dropLast, List.dropLast_sublist c.queue,
              (publish_queue_full cfg op.now h c op.mid op.q hq hfull).1⟩
          · exact Or.inr ⟨c.queue, List.Sublist.refl c.queue,
              (publish_queue_room cfg op.now h c op.mid op.q hq hfull).1⟩
        · exact Or.inl (publish_queue_not_queued cfg op.now h c op.mid op.q hq).1
      have hInv2 : chanInv (publish cfg op.now h c op.mid op.q).heap
          (publish cfg op.now h c op.mid op.q).chan (op.mid :: used) := by
        rcases hqcases with hA | ⟨t, hsubl, hB⟩
        · refine ⟨?_, ?_, ?_, ?_⟩
          · rw [hA]
            exact fun m hm => List.mem_cons_of_mem _ (hInv.1 m hm)
          · intro l hl
            rw [publish_lastMessage] at hl
            injection hl with hl
            subst hl
            refine ⟨List.mem_cons_self _ _, ?_⟩
            rw [hA]
            exact fun m hm => Or.inl (hqueue_lt m hm)
          · intro hnone
            rw [publish_lastMessage] at hnone
            cases hnone
          · rw [hA]
            exact pairwise_heap_congr h _ c.queue
              (fun m hm => hheap_same m (hInv.1 m hm)) hInv.2.2.2
        · refine ⟨?_, ?_, ?_, ?_⟩
          · rw [hB]
            intro m hm
            rcases List.mem_cons.1 hm with rfl | hm2
            · exact List.mem_cons_self _ _
            · exact List.mem_cons_of_mem _ (hInv.1 m (hsubl.subset hm2))
          · intro l hl
            rw [publish_lastMessage] at hl
            injection hl with hl
            subst hl
            refine ⟨List.mem_cons_self _ _, ?_⟩
            rw [hB]
            intro m hm
            rcases List.mem_cons.1 hm with rfl | hm2
            · exact Or.inr ⟨rfl, rfl⟩
            · exact Or.inl (hqueue_lt m (hsubl.subset hm2))
          · intro hnone
            rw [publish_lastMessage] at hnone
            cases hnone
          · rw [hB]
            refine List.Pairwise.cons ?_ ?_
            · exact fun b hb => hqueue_lt b (hsubl.subset hb)
            · exact pairwise_heap_congr h _ t
                (fun m hm => hheap_same m (hInv.1 m (hsubl.subset hm)))
                (hInv.2.2.2.sublist hsubl)
      have hchain2 := (List.chain'_cons'.1 hchain).2
      have hrel2 := (List.chain'_cons'.1 hchain).1
      have hnodup2 : ((rest.map (fun op => op.mid))).Nodup :=
        (List.nodup_cons.1 (by simpa using hnodup)).2
      have hheadnotin : op.mid ∉ rest.map (fun op => op.mid) :=
        (List.nodup_cons.1 (by simpa using hnodup)).1
      have hfresh2 : ∀ o ∈ rest, o.mid ∉ op.mid :: used := by
        intro o ho
        rw [List.mem_cons]
        rintro (he | hu)
        · exact hheadnotin (he ▸ List.mem_map_of_mem (fun op => op.mid) ho)
        · exact hfresh o (List.mem_cons_of_mem op ho) hu
      have htime2 : ∀ l, (publish cfg op.now h c op.mid op.q).chan.lastMessage
          = some l → ∀ x, rest.head? = some x →
          (((publish cfg op.now h c op.mid op.q).heap l).time ≤ x.now) := by
        intro l hl x hx
        rw [publish_lastMessage] at hl
        injection hl with hl
        subst hl
        rw [publish_heap_time]
        exact hrel2 x hx
      have hih := ih (publish cfg op.now h c op.mid op.q).heap
        (publish cfg op.now h c op.mid op.q).chan (op.mid :: used)
        hInv2 htime2 hchain2 hnodup2 hfresh2
      have hrun : runPubs cfg (h, c) (op :: rest)
          = runPubs cfg ((publish cfg op.now h c op.mid op.q).heap,
              (publish cfg op.now h c op.mid op.q).chan) rest := rfl
      have hmidstable :
          (runPubs cfg ((publish cfg op.now h c op.mid op.q).heap,
              (publish cfg op.now h c op.mid op.q).chan) rest).1 op.mid
            = (publish cfg op.now h c op.mid op.q).heap op.mid :=
        hih.2.1 op.mid (List.mem_cons_self _ _)
      refine ⟨?_, ?_, ?_, ?_⟩
      · rw [hrun]
        refine chanInv_mono _ _ ?_ hih.1
        intro m hm
        simp only [List.map_cons, List.cons_append, List.mem_cons, List.mem_append] at *
        tauto
      · intro m hm
        rw [hrun, hih.2.1 m (List.mem_cons_of_mem _ hm), hheap_same m hm]
      · intro b hb l hl
        rw [hrun]
        simp only [List.map_cons, List.mem_cons] at hb
        rcases hb with rfl | hb2
        · rw [hmidstable]
          exact hnew_gt l hl
        · exact stampLt_trans (hnew_gt l hl)
            (hih.2.2.1 b hb2 op.mid (publish_lastMessage cfg op.now h c op.mid op.q))
      · rw [hrun]
        simp only [List.map_cons]
        refine List.Pairwise.cons ?_ hih.2.2.2
        intro b hb
        rw [hmidstable]
        exact hih.2.2.1 b hb op.mid (publish_lastMessage cfg op.now h c op.mid op.q)

/-- Claim C3, amended: across a sequence of publishes from a fresh channel
whose clock values are non-decreasing and whose message objects are pairwise
distinct (no object is republished), the assigned stamps are strictly
increasing in insertion order — etag resets to 0 when the time advances and
becomes the previous etag plus one within the same second — and hence every
older queued message has a strictly smaller `(time, etag)` stamp than every
newer one (the queue is stored newest first). -/
theorem c3_stamps_amended (cfg : Configuration) (ops : List PubOp) (cid : String)
    (now0 : Int)
    (hchain : List.Chain' (fun a b => a.now ≤ b.now) ops)
    (hnodup : (ops.map (fun op => op.mid)).Nodup) :
    List.Pairwise
      (fun a b => stampLt ((runPubs cfg (initHeap, newChannel cid now0) ops).1 b)
        ((runPubs cfg (initHeap, newChannel cid now0) ops).1 a))
      (runPubs cfg (initHeap, newChannel cid now0) ops).2.queue ∧
    List.Pairwise
      (fun a b => stampLt ((runPubs cfg (initHeap, newChannel cid now0) ops).1 a)
        ((runPubs cfg (initHeap, newChannel cid now0) ops).1 b))
      (ops.map (fun op => op.mid)) ∧
    (∀ (now : Int) (h : Heap) (c : channel) (mid : Nat) (q : Bool),
      ((publish cfg now h c mid q).heap mid).time = now ∧
      (c.lastMessage = none → ((publish cfg now h c mid q).heap mid).etag = 0) ∧
      (∀ l, c.lastMessage = some l → l ≠ mid →
        ((h l).time = now →
          ((publish cfg now h c mid q).heap mid).etag = (h l).etag + 1) ∧
        ((h l).time ≠ now →
          ((publish cfg now h c mid q).heap mid).etag = 0))) := by
  have hinit : chanInv initHeap (newChannel cid now0) [] := by
    refine ⟨?_, ?_, fun _ => rfl, ?_⟩
    · intro m hm
      simp [newChannel] at hm
    · intro l hl
      simp [newChannel] at hl
    · simp [newChannel]
  have hmain := runPubs_strict cfg ops initHeap (newChannel cid now0) [] hinit
    (by intro l hl; simp [newChannel] at hl) hchain hnodup (by simp)
  refine ⟨hmain.1.2.2.2, hmain.2.2.2, ?_⟩
  intro now h c mid q
  exact ⟨publish_heap_time cfg now h c mid q,
    fun hnone => publish_heap_etag_none cfg now h c mid q hnone,
    fun l hl hne =>
      ⟨fun ht => publish_heap_etag_same_second cfg now h c mid q l hl hne ht,
       fun ht => publish_heap_etag_new_second cfg now h c mid q l hl hne ht⟩⟩

/-- Witness for C3 at a concrete trace: three distinct messages, two in the
same second; stamps come out `(5,0)`, `(5,1)`, `(7,0)` and the queue is
strictly ordered. -/
theorem c3_stamps_amended_witness :
    ((runPubs cfgCap2 (initHeap, newChannel "w" 0)
        [{ now := 5, mid := 2, q := true }, { now := 5, mid := 3, q := true },
          { now := 7, mid := 4, q := true }]).1 3).etag = 1 ∧
    (List.Pairwise
      (fun a b => stampLt
        ((runPubs cfgCap2 (initHeap, newChannel "w" 0)
            [{ now := 5, mid := 2, q := true }, { now := 5, mid := 3, q := true },
              { now := 7, mid := 4, q := true }]).1 b)
        ((runPubs cfgCap2 (initHeap, newChannel "w" 0)
            [{ now := 5, mid := 2, q := true }, { now := 5, mid := 3, q := true },
              { now := 7, mid := 4, q := true }]).1 a))
      (runPubs cfgCap2 (initHeap, newChannel "w" 0)
        [{ now := 5, mid := 2, q := true }, { now := 5, mid := 3, q := true },
          { now := 7, mid := 4, q := true }]).2.queue ∧
    List.Pairwise
      (fun a b => stampLt
        ((runPubs cfgCap2 (initHeap, newChannel "w" 0)
            [{ now := 5, mid := 2, q := true }, { now := 5, mid := 3, q := true },
              { now := 7, mid := 4, q := true }]).1 a)
        ((runPubs cfgCap2 (initHeap, newChannel "w" 0)
            [{ now := 5, mid := 2, q := true }, { now := 5, mid := 3, q := true },
              { now := 7, mid := 4, q := true }]).1 b))
      (([{ now := 5, mid := 2, q := true }, { now := 5, mid := 3, q := true },
          { now := 7, mid := 4, q := true }] : List PubOp).map (fun op => op.mid)) ∧
    (∀ (now : Int) (h : Heap) (c : channel) (mid : Nat) (q : Bool),
      ((publish cfgCap2 now h c mid q).heap mid).time = now ∧
      (c.lastMessage = none → ((publish cfgCap2 now h c mid q).heap mid).etag = 0) ∧
      (∀ l, c.lastMessage = some l → l ≠ mid →
        ((h l).time = now →
          ((publish cfgCap2 now h c mid q).heap mid).etag = (h l).etag + 1) ∧
        ((h l).time ≠ now →
          ((publish cfgCap2 now h c mid q).heap mid).etag = 0)))) :=
  ⟨by decide,
    c3_stamps_amended cfgCap2
      [{ now := 5, mid := 2, q := true }, { now := 5, mid := 3, q := true },
        { now := 7, mid := 4, q := true }] "w" 0
      (by simp [List.chain'_cons]) (by decide)⟩

/-- Claim C3, counterexample: publishing the same `Message` object (pointer 7)
twice with queueing, at seconds 5 and 6, leaves the queue holding that pointer
twice, and the pair formed by the older and the newer queue entry is not
strictly ordered by `(time, etag)` — both entries read the single object's
final stamp, so the claimed strict order between every older and newer queued
message fails. -/
theorem c3_queue_order_counterexample :
    (runPubs cfgCap2 (initHeap, newChannel "t" 1)
        [{ now := 5, mid := 7, q := true }, { now := 6, mid := 7, q := true }]).2.queue
      = [7, 7] ∧
    ¬ stampLt
        ((runPubs cfgCap2 (initHeap, newChannel "t" 1)
            [{ now := 5, mid := 7, q := true }, { now := 6, mid := 7, q := true }]).1 7)
        ((runPubs cfgCap2 (initHeap, newChannel "t" 1)
            [{ now := 5, mid := 7, q := true }, { now := 6, mid := 7, q := true }]).1 7) := by
  decide

/-- Claim C4, failing input: with `MaxChannelIdleTime = 0` and
`MaxChannels = 2`, two channels whose stamps are 10 and 20 are both evicted by
`GC` at `start = 100e9` ns even though the count (2) does not exceed
`MaxChannels` — the computed idle limit is `(100e9 - 0)/1e9 = 100`, so the
idle criterion is not disabled by a zero `MaxChannelIdleTime`, contradicting
the configuration documentation and the claim. -/
theorem c4_gc_idle_zero_still_evicts :
    cfgGCIdle0.maxChannelIdleTime = 0 ∧
    (([newChannel "a" 10, newChannel "b" 20] : List channel).length : Int)
      ≤ cfgGCIdle0.maxChannels ∧
    GC cfgGCIdle0 (100 * 1000000000) [newChannel "a" 10, newChannel "b" 20]
      = [newChannel "a" 10, newChannel "b" 20] := by
  decide

/-- Claim C5, failing input: for a snapshot with `lastRequested = 50` and
`lastPublished = 0` rendered at second 100, the plain formatter emits
`lastRequested = -1` (clobbered by the `lastPublished` else-branch, instead of
the claimed `100 - 50`) and `lastPublished = 0` (instead of the claimed
`-1`). -/
theorem c5_writeStats_plain_bug :
    statsNeverPublished.lastRequested = 50 ∧
    statsNeverPublished.lastPublished = 0 ∧
    (writeStatsPlain 100 statsNeverPublished).lastRequested = -1 ∧
    (writeStatsPlain 100 statsNeverPublished).lastPublished = 0 := by
  decide

/-- Claim C6, counterexample: delivering the synthetic `Gone` to a parked
subscriber goes through `publish`, which stamps the shared `goneMessage`
object in place — the delivered message has `time = 5`, not the claimed
zero stamp. -/
theorem c6_gone_delivery_counterexample :
    (publish cfgCap2 5 initHeap oneReadySubChannel goneId false).outcomes
      = [(0, some goneId)] ∧
    ((publish cfgCap2 5 initHeap oneReadySubChannel goneId false).heap goneId).status
      = 410 ∧
    ((publish cfgCap2 5 initHeap oneReadySubChannel goneId false).heap goneId).time
      = 5 ∧
    ((publish cfgCap2 5 initHeap oneReadySubChannel goneId false).heap goneId).time
      ≠ 0 := by
  decide

theorem evPublishedCount_append (a b : List Ev) :
    evPublishedCount (a ++ b) = evPublishedCount a + evPublishedCount b := by
  induction a with
  | nil => simp [evPublishedCount]
  | cons e r ih => cases e <;> simp [evPublishedCount, ih] <;> omega

theorem evSumN_append (a b : List Ev) :
    evSumN (a ++ b) = evSumN a + evSumN b := by
  induction a with
  | nil => simp [evSumN]
  | cons e r ih => cases e <;> simp [evSumN, ih] <;> omega

theorem evHitCount_append (a b : List Ev) :
    evHitCount (a ++ b) = evHitCount a + evHitCount b := by
  induction a with
  | nil => simp [evHitCount]
  | cons e r ih => cases e <;> simp [evHitCount, ih] <;> omega

/-- `subscribeTail` leaves `Published` alone, adds the queue hit (if any) to
`Delivered`, and preserves the subscriber-count invariant. -/
theorem subscribeTail_stats (cfg : Configuration) (h : Heap) (c : channel)
    (since etagArg : Int) (ready : Bool) (w : List (Nat × Option Nat))
    (p : Option Nat)
    (hinv : c.stats.subscribers = (c.subscribers.length : Int)) :
    (subscribeTail cfg h c since etagArg ready w p).chan.stats.published
      = c.stats.published ∧
    (subscribeTail cfg h c since etagArg ready w p).chan.stats.delivered
      = c.stats.delivered
        + (if (subscribeTail cfg h c since etagArg ready w p).hit then 1 else 0) ∧
    (subscribeTail cfg h c since etagArg ready w p).chan.stats.subscribers
      = (((subscribeTail cfg h c since etagArg ready w p).chan.subscribers.length : Int)) := by
  cases hfind : lookup h since etagArg c.queue.reverse with
  | some mid => simp [subscribeTail, hfind, hinv]
  | none =>
      by_cases hm : cfg.pollingMechanism = pollingMechanismInterval <;>
        simp [subscribeTail, hfind, hm, hinv] <;> (try push_cast) <;> (try omega)

/-- One `Subscribe` call adds its internal publish (if any) to `Published`,
its internal delivered count and queue hit to `Delivered`, and preserves the
subscriber-count invariant. -/
theorem subscribe_stats_step (cfg : Configuration) (now : Int) (h : Heap)
    (c : channel) (since etagArg : Int) (ready : Bool)
    (hinv : c.stats.subscribers = (c.subscribers.length : Int)) :
    (Subscribe cfg now h c since etagArg ready).chan.stats.published
      = c.stats.published
        + (if (Subscribe cfg now h c since etagArg ready).pubN.isSome then 1 else 0) ∧
    (Subscribe cfg now h c since etagArg ready).chan.stats.delivered
      = c.stats.delivered
        + (((Subscribe cfg now h c since etagArg ready).pubN.getD 0 : Int))
        + (if (Subscribe cfg now h c since etagArg ready).hit then 1 else 0) ∧
    (Subscribe cfg now h c since etagArg ready).chan.stats.subscribers
      = (((Subscribe cfg now h c since etagArg ready).chan.subscribers.length : Int)) := by
  by_cases hL : cfg.concurrencyMode = concurrencyModeLIFO
  · have hs : Subscribe cfg now h c since etagArg ready
        = subscribeTail cfg
            (publish cfg now h { c with stats := { c.stats with lastRequested := now } }
              conflictId false).heap
            (publish cfg now h { c with stats := { c.stats with lastRequested := now } }
              conflictId false).chan
            since etagArg ready
            (publish cfg now h { c with stats := { c.stats with lastRequested := now } }
              conflictId false).outcomes
            (some (publish cfg now h
              { c with stats := { c.stats with lastRequested := now } }
              conflictId false).n) := by
      rw [Subscribe, hL]
      rfl
    have hpub := publish_stats_published cfg now h
      { c with stats := { c.stats with lastRequested := now } } conflictId false
    have hdel := publish_stats_delivered cfg now h
      { c with stats := { c.stats with lastRequested := now } } conflictId false
    have hsubs := publish_stats_subscribers cfg now h
      { c with stats := { c.stats with lastRequested := now } } conflictId false
    have hlist := publish_subscribers cfg now h
      { c with stats := { c.stats with lastRequested := now } } conflictId false
    have hn := publish_n_eq cfg now h
      { c with stats := { c.stats with lastRequested := now } } conflictId false
    have hst := subscribeTail_stats cfg
      (publish cfg now h { c with stats := { c.stats with lastRequested := now } }
        conflictId false).heap
      (publish cfg now h { c with stats := { c.stats with lastRequested := now } }
        conflictId false).chan
      since etagArg ready
      (publish cfg now h { c with stats := { c.stats with lastRequested := now } }
        conflictId false).outcomes
      (some (publish cfg now h
        { c with stats := { c.stats with lastRequested := now } }
        conflictId false).n)
      (by rw [hsubs, hlist]; rfl)
    have hpn := subscribeTail_pubN cfg
      (publish cfg now h { c with stats := { c.stats with lastRequested := now } }
        conflictId false).heap
      (publish cfg now h { c with stats := { c.stats with lastRequested := now } }
        conflictId false).chan
      since etagArg ready
      (publish cfg now h { c with stats := { c.stats with lastRequested := now } }
        conflictId false).outcomes
      (some (publish cfg now h
        { c with stats := { c.stats with lastRequested := now } }
        conflictId false).n)
    rw [hs, hpn]
    refine ⟨?_, ?_, hst.2.2⟩
    · rw [hst.1, hpub]
      simp
    · rw [hst.2.1, hdel, hn]
      simp only [Option.getD_some]
  · by_cases hF : cfg.concurrencyMode = concurrencyModeFILO
        ∧ ({ c with stats := { c.stats with lastRequested := now } } : channel).stats.subscribers > 0
    · have hs : Subscribe cfg now h c since etagArg ready
          = { heap := h
              chan := { c with stats := { c.stats with lastRequested := now } }
              elem := none, message := some conflictId
              woken := [], pubN := none, hit := false } := by
        rw [Subscribe, if_neg hL, if_pos hF]
      rw [hs]
      exact ⟨by simp, by simp, by simpa using hinv⟩
    · have hs : Subscribe cfg now h c since etagArg ready
          = subscribeTail cfg h
              { c with stats := { c.stats with lastRequested := now } }
              since etagArg ready [] none := by
        rw [Subscribe, if_neg hL, if_neg hF]
      have hst := subscribeTail_stats cfg h
        { c with stats := { c.stats with lastRequested := now } }
        since etagArg ready [] none (by simpa using hinv)
      have hpn := subscribeTail_pubN cfg h
        { c with stats := { c.stats with lastRequested := now } }
        since etagArg ready [] none
      rw [hs, hpn]
      refine ⟨?_, ?_, hst.2.2⟩
      · rw [hst.1]
        simp
      · rw [hst.2.1]
        simp

/-- One operation adds its events' counts to `Published` and `Delivered` and
preserves the subscriber-count invariant. -/
theorem stepOp_stats (cfg : Configuration) (s : Heap × channel) (op : Op)
    (hinv : s.2.stats.subscribers = (s.2.subscribers.length : Int)) :
    (stepOp cfg s op).1.2.stats.published
      = s.2.stats.published + (evPublishedCount (stepOp cfg s op).2 : Int) ∧
    (stepOp cfg s op).1.2.stats.delivered
      = s.2.stats.delivered
        + ((evSumN (stepOp cfg s op).2 : Int) + (evHitCount (stepOp cfg s op).2 : Int)) ∧
    (stepOp cfg s op).1.2.stats.subscribers
      = (((stepOp cfg s op).1.2.subscribers.length : Int)) := by
  cases op with
  | pub now mid q =>
      simp only [stepOp, evPublishedCount, evSumN, evHitCount]
      refine ⟨?_, ?_, ?_⟩
      · rw [publish_stats_published]
        push_cast
        ring
      · rw [publish_stats_delivered, publish_n_eq]
        push_cast
        ring
      · rw [publish_stats_subscribers, publish_subscribers]
        rfl
  | pubString now mid str q =>
      have hps : PublishString cfg now s.1 s.2 mid str q
          = publish cfg now (hUpdate s.1 mid
              { contentType := "text/plain", payload := some str, status := 200
                etag := 0, time := 0 }) s.2 mid q := rfl
      simp only [stepOp, hps, evPublishedCount, evSumN, evHitCount]
      refine ⟨?_, ?_, ?_⟩
      · rw [publish_stats_published]
        push_cast
        ring
      · rw [publish_stats_delivered, publish_n_eq]
        push_cast
        ring
      · rw [publish_stats_subscribers, publish_subscribers]
        rfl
  | sub now since etagArg ready =>
      have hsub := subscribe_stats_step cfg now s.1 s.2 since etagArg ready hinv
      simp only [stepOp]
      cases hp : (Subscribe cfg now s.1 s.2 since etagArg ready).pubN with
      | none =>
          cases hh : (Subscribe cfg now s.1 s.2 since etagArg ready).hit <;>
            (rw [hp, hh] at hsub
             simp only [hp, hh]
             simp [evPublishedCount, evSumN, evHitCount] at hsub ⊢
             omega)
      | some n =>
          cases hh : (Subscribe cfg now s.1 s.2 since etagArg ready).hit <;>
            (rw [hp, hh] at hsub
             simp only [hp, hh]
             simp [evPublishedCount, evSumN, evHitCount] at hsub ⊢
             omega)
  | unsub sid =>
      simp only [stepOp, evPublishedCount, evSumN, evHitCount, Unsubscribe]
      refine ⟨by push_cast; ring, by push_cast; ring, ?_⟩
      trivial

/-- Folding `stepOp_stats` over an operation sequence. -/
theorem runOps_stats (cfg : Configuration) :
    ∀ (ops : List Op) (s : Heap × channel),
      s.2.stats.subscribers = (s.2.subscribers.length : Int) →
      (runOps cfg s ops).1.2.stats.published
        = s.2.stats.published + (evPublishedCount (runOps cfg s ops).2 : Int) ∧
      (runOps cfg s ops).1.2.stats.delivered
        = s.2.stats.delivered
          + ((evSumN (runOps cfg s ops).2 : Int)
              + (evHitCount (runOps cfg s ops).2 : Int)) ∧
      (runOps cfg s ops).1.2.stats.subscribers
        = (((runOps cfg s ops).1.2.subscribers.length : Int)) := by
  intro ops
  induction ops with
  | nil =>
      intro s hinv
      exact ⟨by simp [runOps, evPublishedCount],
        by simp [runOps, evSumN, evHitCount],
        by simpa [runOps] using hinv⟩
  | cons op rest ih =>
      intro s hinv
      have hstep := stepOp_stats cfg s op hinv
      have hih := ih (stepOp cfg s op).1 hstep.2.2
      have hrun : runOps cfg s (op :: rest)
          = ((runOps cfg (stepOp cfg s op).1 rest).1,
             (stepOp cfg s op).2 ++ (runOps cfg (stepOp cfg s op).1 rest).2) := rfl
      rw [hrun]
      refine ⟨?_, ?_, hih.2.2⟩
      · simp only [evPublishedCount_append]
        push_cast
        rw [hih.1, hstep.1]
        ring
      · simp only [evSumN_append, evHitCount_append]
        push_cast
        rw [hih.2.1, hstep.2.1]
        ring

/-- Claim C9, amended: across any operation sequence from a fresh channel,
`stats.Published` counts every run of the internal `publish` — caller
`Publish`/`PublishString` calls plus the synthetic Conflict publishes that
`Subscribe` performs under LIFO; `stats.Delivered` is the sum of the delivered
counts of those publish events plus the number of immediate queue hits; and
`stats.Subscribers` always equals the number of parked wait slots. -/
theorem c9_counters_amended (cfg : Configuration) (ops : List Op) (h : Heap)
    (cid : String) (now0 : Int) :
    (runOps cfg (h, newChannel cid now0) ops).1.2.stats.published
      = (evPublishedCount (runOps cfg (h, newChannel cid now0) ops).2 : Int) ∧
    (runOps cfg (h, newChannel cid now0) ops).1.2.stats.delivered
      = ((evSumN (runOps cfg (h, newChannel cid now0) ops).2 : Int)
          + (evHitCount (runOps cfg (h, newChannel cid now0) ops).2 : Int)) ∧
    (runOps cfg (h, newChannel cid now0) ops).1.2.stats.subscribers
      = (((runOps cfg (h, newChannel cid now0) ops).1.2.subscribers.length : Int)) := by
  have hmain := runOps_stats cfg ops (h, newChannel cid now0) (by simp [newChannel])
  refine ⟨?_, ?_, hmain.2.2⟩
  · simpa [newChannel] using hmain.1
  · simpa [newChannel] using hmain.2.1

/-- Claim C9, counterexample: under LIFO a single `Subscribe` call performs an
internal synthetic publish, so `stats.Published` becomes 1 although the caller
made zero `Publish`/`PublishString` calls. -/
theorem c9_published_counterexample :
    callerPublishCalls [Op.sub 5 0 0 true] = 0 ∧
    (runOps cfgLIFO (initHeap, newChannel "c" 0) [Op.sub 5 0 0 true]).1.2.stats.published
      = 1 ∧
    (runOps cfgLIFO (initHeap, newChannel "c" 0) [Op.sub 5 0 0 true]).1.2.stats.published
      ≠ (callerPublishCalls [Op.sub 5 0 0 true] : Int) := by
  decide

end PusherGo
